import Mathlib

/-!
Shallow embedding of the Mixture-of-Experts router from
`app/services/router.py` and the settings class from `app/core/config.py`,
together with theorems checking the specification's claims about it.

Conventions of the embedding:
* Python strings are `String`; `kw in s` (substring test) is `containsKw`.
* A chat message (a Python dict) is a `Message`: its `role`, its `content`
  (either a plain string or a list of typed parts), and the remaining
  key/value entries as `extra` (carried along untouched).
* Python dicts used as maps are association lists with last-wins insertion
  semantics (`dictGet`); Python sets of words are `Finset String`.
* The mutable circuit-breaker state of the router (`failure_counts`,
  `quarantined_models`) is the record `Health`, threaded explicitly.
* Python float arithmetic in the coverage score is embedded as exact `Rat`
  arithmetic; the claims under check concern token counting and branch
  conditions, not rounding.
* The configuration values the router reads from `settings` are gathered in
  `RouterConfig`, so that theorems quantify over every configuration.
-/

namespace MoE

/-- One element of a multimodal content list: a `{"type": "text", ...}` part,
a `{"type": "image_url", ...}` part, or any other entry (a dict with another
type tag, or a non-dict item), which the router's loops skip. -/
inductive Part where
  | text : String → Part
  | image : String → Part
  | other : String → Part
deriving DecidableEq, Repr

/-- The `content` value of a message: either a plain string or a list of
typed parts. -/
inductive Content where
  | str : String → Content
  | parts : List Part → Content
deriving DecidableEq, Repr

/-- A chat message: role, content, and all remaining dict entries. -/
structure Message where
  role : String
  content : Content
  extra : List (String × String)
deriving DecidableEq, Repr

/-- The values `MoERouter.__init__` copies out of `settings`, plus the
circuit-breaker threshold it reads.  (`config.py` never defines the
threshold; see the `settingsFields` development below.  The spec names 3 as
the reference default.) -/
structure RouterConfig where
  default_model : String
  reasoning_model : String
  fallback_model : String
  enterprise_model : String
  math_tool_model : String
  code_model : String
  aggregator_model : String
  cost_code_model : String
  vision_model : String
  vision_thinking_model : String
  circuit_breaker_threshold : Nat
deriving DecidableEq, Repr

/-- Python `s.lower()`: lowercase every character. -/
def pyLower (s : String) : String :=
  String.mk (s.data.map Char.toLower)

/-- Is `n` a contiguous sublist of the second argument? -/
def listInfixOf (n : List Char) : List Char → Bool
  | [] => n.isEmpty
  | c :: t => List.isPrefixOf n (c :: t) || listInfixOf n t

/-- Python `kw in s`: substring containment. -/
def containsKw (s kw : String) : Bool :=
  listInfixOf kw.toList s.toList

/-- Python `any(keyword in s for keyword in kws)`. -/
def containsAny (s : String) (kws : List String) : Bool :=
  kws.any (containsKw s)

def CODE_KEYWORDS : List String :=
  ["code", "class", "programming", "debug", "implement",
   "script", "bug", "error", "compile", "syntax", "refactor", "test"]

def SIMPLE_CODE_KEYWORDS : List String :=
  ["simple", "basic", "quick", "small"]

def MATH_TOOL_KEYWORDS : List String :=
  ["math", "calculate", "equation", "solve", "tool", "function call",
   "agent", "autonomous", "workflow", "integrate", "api", "invoke"]

def REASONING_KEYWORDS : List String :=
  ["analyze", "reasoning", "why", "complex", "detailed", "explain in depth",
   "comprehensive", "thorough", "trace", "step-by-step", "think"]

def ENTERPRISE_KEYWORDS : List String :=
  ["enterprise", "production", "critical", "important", "detailed analysis"]

def AGGREGATION_KEYWORDS : List String :=
  ["summarize", "combine", "aggregate", "synthesize", "merge", "consolidate"]

def RAG_KEYWORDS : List String :=
  ["search", "find", "lookup", "retrieve", "document", "knowledge base"]

/-- The loop body of `route_request` over a multimodal content list: each
text part overwrites `last_message`, each image part sets `has_images`. -/
def scanParts (acc : String × Bool) : List Part → String × Bool
  | [] => acc
  | Part.text s :: rest => scanParts (s, acc.2) rest
  | Part.image _ :: rest => scanParts (acc.1, true) rest
  | Part.other _ :: rest => scanParts acc rest

/-- Extraction of `(last_message, has_images)` from one message's content. -/
def processContent : Content → String × Bool
  | Content.str s => (s, false)
  | Content.parts ps => scanParts ("", false) ps

/-- The most recent message with role `"user"`, if any
(`for msg in reversed(messages): if msg.get("role") == "user": ... break`). -/
def findLastUser (messages : List Message) : Option Message :=
  messages.reverse.find? (fun m => m.role == "user")

/-- `(last_message, has_images)` as computed by the extraction loop at the
top of `MoERouter.route_request`. -/
def extractLastUser (messages : List Message) : String × Bool :=
  match findLastUser messages with
  | some m => processContent m.content
  | none => ("", false)

/-- The priority cascade of `MoERouter.route_request`, applied to the
lowercased extracted text and the image flag. -/
def route_from (c : RouterConfig) (lower_message : String) (has_images : Bool)
    (use_rag : Bool) : String × Bool :=
  if has_images then
    if containsAny lower_message (REASONING_KEYWORDS ++ MATH_TOOL_KEYWORDS) then
      (c.vision_thinking_model, false)
    else
      (c.vision_model, false)
  else if containsAny lower_message CODE_KEYWORDS then
    if containsAny lower_message SIMPLE_CODE_KEYWORDS then
      (c.cost_code_model, false)
    else
      (c.code_model, false)
  else if containsAny lower_message MATH_TOOL_KEYWORDS then
    (c.math_tool_model, use_rag)
  else if containsAny lower_message REASONING_KEYWORDS then
    (c.reasoning_model, use_rag)
  else if containsAny lower_message ENTERPRISE_KEYWORDS then
    (c.enterprise_model, use_rag)
  else if containsAny lower_message AGGREGATION_KEYWORDS then
    (c.aggregator_model, use_rag)
  else if containsAny lower_message RAG_KEYWORDS then
    (c.fallback_model, true)
  else
    (c.fallback_model, use_rag)

/-- `MoERouter.route_request(messages, use_rag) -> (model, use_rag_flag)`. -/
def route_request (c : RouterConfig) (messages : List Message)
    (use_rag : Bool) : String × Bool :=
  let p := extractLastUser messages
  route_from c (pyLower p.1) p.2 use_rag

/-- The `backup_chain` dict literal built in `MoERouter.__init__`, in source
order (primary model ↦ ordered backups). -/
def backup_chain (c : RouterConfig) : List (String × List String) :=
  [(c.reasoning_model, [c.enterprise_model, c.fallback_model]),
   (c.fallback_model, [c.enterprise_model]),
   (c.enterprise_model, [c.reasoning_model, c.fallback_model]),
   (c.math_tool_model, [c.aggregator_model, c.enterprise_model]),
   (c.code_model, [c.cost_code_model, c.fallback_model]),
   (c.aggregator_model, [c.reasoning_model, c.enterprise_model]),
   (c.cost_code_model, [c.fallback_model]),
   (c.vision_model, [c.vision_thinking_model, c.fallback_model]),
   (c.vision_thinking_model, [c.vision_model, c.fallback_model])]

/-- Python dict lookup with default on a dict built from a literal list of
entries: a later entry with the same key overwrites an earlier one. -/
def dictGet (entries : List (String × List String)) (k : String)
    (d : List String) : List String :=
  match entries.foldl (fun acc p => if p.1 = k then some p.2 else acc) none with
  | some v => v
  | none => d

/-- `MoERouter.get_backup_models`. -/
def get_backup_models (c : RouterConfig) (primary_model : String) : List String :=
  dictGet (backup_chain c) primary_model []

/-- Circuit-breaker state: `failure_counts` dict (missing key reads as 0)
and `quarantined_models` set, both as total functions on model names. -/
structure Health where
  failure_counts : String → Nat
  quarantined : String → Bool

/-- Fresh router state: empty dict, empty set. -/
def Health.init : Health :=
  { failure_counts := fun _ => 0, quarantined := fun _ => false }

/-- `MoERouter.record_failure`: increment the model's counter and quarantine
it once the counter reaches the threshold. -/
def record_failure (c : RouterConfig) (h : Health) (model : String) : Health :=
  let n := h.failure_counts model + 1
  let fc := fun x => if x = model then n else h.failure_counts x
  if c.circuit_breaker_threshold ≤ n then
    { failure_counts := fc,
      quarantined := fun x => if x = model then true else h.quarantined x }
  else
    { failure_counts := fc, quarantined := h.quarantined }

/-- `MoERouter.record_success`: delete the model's counter entry (so it reads
as 0) and remove the model from the quarantine set. -/
def record_success (h : Health) (model : String) : Health :=
  { failure_counts := fun x => if x = model then 0 else h.failure_counts x,
    quarantined := fun x => if x = model then false else h.quarantined x }

/-- `MoERouter.is_quarantined`. -/
def is_quarantined (h : Health) (model : String) : Bool :=
  h.quarantined model

/-- `record_failure` iterated n times on the same model. -/
def recordFailures (c : RouterConfig) (h : Health) (model : String) : Nat → Health
  | 0 => h
  | n + 1 => record_failure c (recordFailures c h model n) model

/-- One health-tracker mutation: a failure or a success signal for a model. -/
inductive HOp where
  | fail : String → HOp
  | succ : String → HOp
deriving DecidableEq, Repr

/-- Apply one health-tracker call. -/
def applyOp (c : RouterConfig) (h : Health) : HOp → Health
  | HOp.fail m => record_failure c h m
  | HOp.succ m => record_success h m

/-- Run a sequence of health-tracker calls in order. -/
def runOps (c : RouterConfig) (h : Health) : List HOp → Health
  | [] => h
  | op :: rest => runOps c (applyOp c h op) rest

/-- `MoERouter.get_available_model`: the primary if healthy, else the first
healthy backup in chain order, else the fallback model unconditionally. -/
def get_available_model (c : RouterConfig) (h : Health)
    (primary_model : String) : String :=
  if !(is_quarantined h primary_model) then
    primary_model
  else
    match (get_backup_models c primary_model).find?
        (fun b => !(is_quarantined h b)) with
    | some b => b
    | none => c.fallback_model

/-- The text parts of a content list, in order
(`item.get("type") == "text"` entries). -/
def textParts (ps : List Part) : List String :=
  ps.filterMap fun p =>
    match p with
    | Part.text s => some s
    | _ => none

/-- `MoERouter.strip_images_for_fallback`: replace every list-valued content
by the space-joined text parts; leave other messages untouched. -/
def strip_images_for_fallback (messages : List Message) : List Message :=
  messages.map fun msg =>
    match msg.content with
    | Content.parts ps =>
        let tp := textParts ps
        { msg with
          content := Content.str (if tp.isEmpty then "" else String.intercalate " " tp) }
    | Content.str _ => msg

/-- `MoERouter.get_all_expert_models`: the fixed expert catalog. -/
def get_all_expert_models (c : RouterConfig) : List String :=
  [c.reasoning_model,
   c.fallback_model,
   c.enterprise_model,
   c.math_tool_model,
   c.code_model,
   c.aggregator_model,
   c.cost_code_model,
   c.vision_model,
   c.vision_thinking_model]

/-- One of the two identical candidate loops of
`MoERouter.select_experts_for_query`: append each candidate that is
non-quarantined and not yet selected, stopping once `k` experts are held. -/
def fillExperts (h : Health) (k : Nat) (candidates : List String)
    (experts : List String) : List String :=
  candidates.foldl
    (fun acc m =>
      if k ≤ acc.length then acc
      else if !(is_quarantined h m) && !(acc.contains m) then acc ++ [m]
      else acc)
    experts

/-- `MoERouter.select_experts_for_query(messages, k)` with `k` supplied by
the caller. -/
def select_experts_for_query (c : RouterConfig) (h : Health)
    (messages : List Message) (k : Nat) : List String :=
  let primary := (route_request c messages false).1
  let primary := get_available_model c h primary
  let experts := [primary]
  let experts :=
    if 1 < k then
      let experts := fillExperts h k (get_backup_models c primary) experts
      if experts.length < k then
        fillExperts h k (get_all_expert_models c) experts
      else experts
    else experts
  experts.take k

/-- Python `response.split()`: split on whitespace runs, no empty tokens. -/
def pywords (s : String) : List String :=
  (s.split Char.isWhitespace).filter (fun w => w ≠ "")

/-- `MoERouter.calculate_coverage_score`, with Python float arithmetic
embedded as exact rational arithmetic.  The diversity loop accumulates the
union of the per-response word sets and the sum of their sizes, exactly as
the source's `unique_words.update(words); total_words += len(words)`. -/
def calculate_coverage_score (ck : List String) (responses : List String) : Rat :=
  if responses.isEmpty then 0
  else
    let score : Rat := 1
    let low_confidence_count : Nat :=
      (responses.filter (fun r => containsAny (pyLower r) ck)).length
    let confidence_penalty : Rat :=
      ((low_confidence_count : Rat) / (responses.length : Rat)) * (2 / 5)
    let score := score - confidence_penalty
    let avg_length : Rat :=
      (((responses.map String.length).sum : Nat) : Rat) / (responses.length : Rat)
    let score :=
      if avg_length < 50 then score - 3 / 10
      else if avg_length < 150 then score - 3 / 20
      else score
    let score :=
      if 1 < responses.length then
        let pair :=
          responses.foldl
            (fun (acc : Finset String × Nat) response =>
              let words := (pywords (pyLower response)).toFinset
              (acc.1 ∪ words, acc.2 + words.card))
            (∅, 0)
        if 0 < pair.2 then
          let diversity : Rat := (pair.1.card : Rat) / (pair.2 : Rat)
          if diversity < 3 / 10 then score - 1 / 5 else score
        else score
      else score
    -- max(0.0, min(1.0, score)) written with explicit comparisons
    if score < 0 then 0 else if 1 < score then 1 else score

/-- `MoERouter.aggregate_expert_responses` on the dict's entry list (Python
dict iteration order is insertion order).  Inside the loop both branches of
`if len(expert_responses) > 2` append the response text unchanged. -/
def aggregate_expert_responses (expert_responses : List (String × String)) : String :=
  if expert_responses.isEmpty then ""
  else if expert_responses.length = 1 then
    ((expert_responses.map Prod.snd).headD "")
  else
    let aggregated := expert_responses.map Prod.snd
    if 1 < expert_responses.length then
      String.intercalate "\n\n" aggregated
    else
      aggregated.headD ""

/-- Does a content list contain an image part? -/
def hasImagePart (ps : List Part) : Bool :=
  ps.any fun p =>
    match p with
    | Part.image _ => true
    | _ => false

/-- The text of the last text part of a content list, or the default if it
has no text part. -/
def lastTextD (d : String) : List Part → String
  | [] => d
  | Part.text s :: rest => lastTextD s rest
  | Part.image _ :: rest => lastTextD d rest
  | Part.other _ :: rest => lastTextD d rest

/-- Follows the spec wording for claim C1: the concatenation of all of the
turn's text parts, scanned in original order. -/
def concatTextParts (ps : List Part) : String :=
  String.join (textParts ps)

/-- Follows the spec wording for claim C5: the same coverage score, but the
redundancy denominator is the total token count across all responses,
counting every token occurrence in every response. -/
def coverage_score_C5spec (ck : List String) (responses : List String) : Rat :=
  if responses.isEmpty then 0
  else
    let score : Rat := 1
    let low_confidence_count : Nat :=
      (responses.filter (fun r => containsAny (pyLower r) ck)).length
    let confidence_penalty : Rat :=
      ((low_confidence_count : Rat) / (responses.length : Rat)) * (2 / 5)
    let score := score - confidence_penalty
    let avg_length : Rat :=
      (((responses.map String.length).sum : Nat) : Rat) / (responses.length : Rat)
    let score :=
      if avg_length < 50 then score - 3 / 10
      else if avg_length < 150 then score - 3 / 20
      else score
    let score :=
      if 1 < responses.length then
        let distinct : Nat :=
          ((responses.flatMap (fun r => pywords (pyLower r))).toFinset).card
        let total : Nat :=
          (responses.map (fun r => (pywords (pyLower r)).length)).sum
        if 0 < total then
          if (distinct : Rat) / (total : Rat) < 3 / 10 then score - 1 / 5
          else score
        else score
      else score
    -- max(0.0, min(1.0, score)) written with explicit comparisons
    if score < 0 then 0 else if 1 < score then 1 else score

/-- Follows the amended wording for claim C5: the redundancy denominator is
the sum over the responses of each response's number of distinct tokens. -/
def coverage_score_C5amended (ck : List String) (responses : List String) : Rat :=
  if responses.isEmpty then 0
  else
    let score : Rat := 1
    let low_confidence_count : Nat :=
      (responses.filter (fun r => containsAny (pyLower r) ck)).length
    let confidence_penalty : Rat :=
      ((low_confidence_count : Rat) / (responses.length : Rat)) * (2 / 5)
    let score := score - confidence_penalty
    let avg_length : Rat :=
      (((responses.map String.length).sum : Nat) : Rat) / (responses.length : Rat)
    let score :=
      if avg_length < 50 then score - 3 / 10
      else if avg_length < 150 then score - 3 / 20
      else score
    let score :=
      if 1 < responses.length then
        let distinct : Nat :=
          ((responses.flatMap (fun r => pywords (pyLower r))).toFinset).card
        let total : Nat :=
          (responses.map (fun r => (pywords (pyLower r)).toFinset.card)).sum
        if 0 < total then
          if (distinct : Rat) / (total : Rat) < 3 / 10 then score - 1 / 5
          else score
        else score
      else score
    -- max(0.0, min(1.0, score)) written with explicit comparisons
    if score < 0 then 0 else if 1 < score then 1 else score

/-- The field names the `Settings` class in `app/core/config.py` defines
(environment-variable extras are ignored by its `extra='ignore'` config and
never become attributes). -/
def settingsFields : List String :=
  ["ollama_base_url", "ollama_api_key",
   "postgres_host", "postgres_port", "postgres_user", "postgres_password",
   "postgres_db",
   "app_host", "app_port", "log_level",
   "reasoning_model", "fallback_model", "enterprise_model", "math_tool_model",
   "code_model", "aggregator_model", "cost_code_model",
   "vision_model", "vision_thinking_model",
   "default_model",
   "embedding_model", "vector_dimension", "top_k_results",
   "dspy_cache_dir", "dspy_max_retries",
   "database_url", "async_database_url"]

/-- Python attribute access on the `settings` object: defined fields succeed,
anything else raises `AttributeError`. -/
def settingsHasField (name : String) : Bool :=
  settingsFields.contains name

/-- The `settings.<attr>` reads performed by `MoERouter.__init__`, in source
order. -/
def routerInitReads : List String :=
  ["default_model", "reasoning_model", "fallback_model", "enterprise_model",
   "math_tool_model", "code_model", "aggregator_model", "cost_code_model",
   "vision_model", "vision_thinking_model",
   "max_latency_ms", "max_retries", "circuit_breaker_threshold",
   "retry_backoff_factor", "retry_initial_delay"]

/-- Perform a sequence of attribute reads on `settings`; the first missing
attribute aborts with an `AttributeError` naming it. -/
def readSettingsAttrs : List String → Except String Unit
  | [] => Except.ok ()
  | n :: rest =>
    if settingsHasField n then readSettingsAttrs rest else Except.error n

/-- Constructing the module-level `MoERouter()` instance: the attribute reads
its `__init__` performs on `settings`. -/
def routerInit : Except String Unit :=
  readSettingsAttrs routerInitReads

/-- The reference configuration from `config.py`, with the circuit-breaker
threshold at the spec's reference default 3 (the `Settings` class itself
never defines that field). -/
def testConfig : RouterConfig :=
  { default_model := "gpt-oss:20b-cloud"
    reasoning_model := "deepseek-v3.1:671b-cloud"
    fallback_model := "gpt-oss:20b-cloud"
    enterprise_model := "gpt-oss:120b-cloud"
    math_tool_model := "kimi-k2:1t-cloud"
    code_model := "qwen3-coder:480b-cloud"
    aggregator_model := "glm-4.6:cloud"
    cost_code_model := "minimax-m2:cloud"
    vision_model := "qwen3-vl:235b-cloud"
    vision_thinking_model := "qwen3-vl:235b-instruct-cloud"
    circuit_breaker_threshold := 3 }


/-! ## Helper lemmas -/

/-- The extraction loop over a content list computes the last text part (the
accumulator as default) and whether any part is an image. -/
theorem scanParts_eq (ps : List Part) : ∀ a b,
    scanParts (a, b) ps = (lastTextD a ps, b || hasImagePart ps) := by
  induction ps with
  | nil => intro a b; simp [scanParts, lastTextD, hasImagePart]
  | cons p rest ih =>
    intro a b
    cases p with
    | text s => simp [scanParts, lastTextD, hasImagePart, ih]
    | image u => simp [scanParts, lastTextD, hasImagePart, ih]
    | other t => simp [scanParts, lastTextD, hasImagePart, ih]

/-- After n failure signals, a model's failure counter has grown by n. -/
theorem recordFailures_counts (c : RouterConfig) (h : Health) (m : String) :
    ∀ n, (recordFailures c h m n).failure_counts m = h.failure_counts m + n := by
  intro n
  induction n with
  | zero => rfl
  | succ n ih =>
    simp only [recordFailures, record_failure]
    split <;> simp [ih, Nat.add_assoc]

/-- Starting from counter 0 and no quarantine, the model is quarantined after
n failure signals exactly when n has reached the threshold. -/
theorem recordFailures_quar (c : RouterConfig) (h : Health) (m : String)
    (hT : 1 ≤ c.circuit_breaker_threshold)
    (h0 : h.failure_counts m = 0) (hq : h.quarantined m = false) :
    ∀ n, (recordFailures c h m n).quarantined m
      = decide (c.circuit_breaker_threshold ≤ n) := by
  intro n
  induction n with
  | zero =>
    have h1 : ¬ c.circuit_breaker_threshold ≤ 0 := by omega
    simp [recordFailures, hq, h1]
  | succ n ih =>
    have hc := recordFailures_counts c h m n
    simp only [recordFailures, record_failure]
    rw [hc, h0]
    simp only [Nat.zero_add]
    by_cases hle : c.circuit_breaker_threshold ≤ n + 1
    · simp [hle]
    · have hn : ¬ c.circuit_breaker_threshold ≤ n := by omega
      simp [hle, ih, hn]

/-- A single health-tracker call that is not a success signal for this model
leaves it quarantined. -/
theorem applyOp_quar (c : RouterConfig) (h : Health) (m : String) (op : HOp)
    (hq : h.quarantined m = true) (hne : op ≠ HOp.succ m) :
    (applyOp c h op).quarantined m = true := by
  cases op with
  | fail m2 =>
    simp only [applyOp, record_failure]
    split
    · by_cases hm : m = m2 <;> simp [hm, hq]
    · simp [hq]
  | succ m2 =>
    have hm : ¬ m = m2 := fun hcontra => hne (by rw [hcontra])
    simp [applyOp, record_success, hm, hq]


/-! ## Claim theorems -/

/-- C2: starting from the Available state with failure count 0, N failure
signals (N = the configured circuit-breaker threshold, an integer ≥ 1 per
the configuration contract) flip `is_quarantined` from false to true — it is
still false one call earlier — and a single following success signal resets
the counter to 0 and lifts the quarantine. -/
theorem claim_C2 (c : RouterConfig) (h : Health) (m : String)
    (hT : 1 ≤ c.circuit_breaker_threshold)
    (hq : is_quarantined h m = false) (h0 : h.failure_counts m = 0) :
    is_quarantined (recordFailures c h m (c.circuit_breaker_threshold - 1)) m = false ∧
    is_quarantined (recordFailures c h m c.circuit_breaker_threshold) m = true ∧
    (record_success (recordFailures c h m c.circuit_breaker_threshold) m).failure_counts m = 0 ∧
    is_quarantined (record_success (recordFailures c h m c.circuit_breaker_threshold) m) m = false := by
  have hquar := recordFailures_quar c h m hT h0 hq
  refine ⟨?_, ?_, ?_, ?_⟩
  · rw [is_quarantined, hquar (c.circuit_breaker_threshold - 1)]
    have : ¬ c.circuit_breaker_threshold ≤ c.circuit_breaker_threshold - 1 := by omega
    simp [this]
  · rw [is_quarantined, hquar c.circuit_breaker_threshold]
    simp
  · simp [record_success]
  · simp [is_quarantined, record_success]

/-- Witness for C2 at the reference configuration (threshold 3), a fresh
health tracker, and a concrete expert. -/
theorem claim_C2_witness :
    is_quarantined (recordFailures testConfig Health.init "expert-x" (testConfig.circuit_breaker_threshold - 1)) "expert-x" = false ∧
    is_quarantined (recordFailures testConfig Health.init "expert-x" testConfig.circuit_breaker_threshold) "expert-x" = true ∧
    (record_success (recordFailures testConfig Health.init "expert-x" testConfig.circuit_breaker_threshold) "expert-x").failure_counts "expert-x" = 0 ∧
    is_quarantined (record_success (recordFailures testConfig Health.init "expert-x" testConfig.circuit_breaker_threshold) "expert-x") "expert-x" = false :=
  claim_C2 testConfig Health.init "expert-x" (by decide) rfl rfl

/-- C7: once a model is quarantined, any sequence of health-tracker calls
containing no success signal for that model leaves it quarantined: no
failure signal and no call about another model exits quarantine (and the
embedded state machine has no time-based transition at all). -/
theorem claim_C7 (c : RouterConfig) (h : Health) (m : String) (ops : List HOp)
    (hq : is_quarantined h m = true) (hns : HOp.succ m ∉ ops) :
    is_quarantined (runOps c h ops) m = true := by
  induction ops generalizing h with
  | nil => exact hq
  | cons op rest ih =>
    have hop : op ≠ HOp.succ m := by
      intro hcontra
      exact hns (by rw [hcontra]; exact List.mem_cons_self _ _)
    have hrest : HOp.succ m ∉ rest := fun hmem => hns (List.mem_cons_of_mem _ hmem)
    exact ih (applyOp c h op) (applyOp_quar c h m op hq hop) hrest

/-- Witness for C7: a quarantined expert stays quarantined across a failure
signal for itself and a success signal for a different expert. -/
theorem claim_C7_witness :
    is_quarantined
      (runOps testConfig (recordFailures testConfig Health.init "expert-x" 3)
        [HOp.fail "expert-x", HOp.succ "expert-y", HOp.fail "expert-y"])
      "expert-x" = true :=
  claim_C7 testConfig (recordFailures testConfig Health.init "expert-x" 3) "expert-x"
    [HOp.fail "expert-x", HOp.succ "expert-y", HOp.fail "expert-y"]
    (by decide) (by decide)

/-- C8: aggregation returns "" for zero responses, the single response
verbatim for one, and for two or more the responses' texts joined by a blank
line in the mapping's iteration order, with no attribution text added. -/
theorem claim_C8 :
    aggregate_expert_responses [] = "" ∧
    (∀ e v, aggregate_expert_responses [(e, v)] = v) ∧
    (∀ er : List (String × String), 2 ≤ er.length →
      aggregate_expert_responses er
        = String.intercalate "\n\n" (er.map Prod.snd)) := by
  refine ⟨rfl, ?_, ?_⟩
  · intro e v
    rfl
  · intro er h2
    match er, h2 with
    | (e1, v1) :: (e2, v2) :: rest, _ =>
      simp [aggregate_expert_responses]

/-- Witness for C8 in the two-response case. -/
theorem claim_C8_witness :
    aggregate_expert_responses [("model-a", "X"), ("model-b", "Y")]
      = String.intercalate "\n\n" ([("model-a", "X"), ("model-b", "Y")].map Prod.snd) :=
  claim_C8.2.2 [("model-a", "X"), ("model-b", "Y")] (by decide)

/-- C9: the plain-text request "Search the knowledge base for AI" routes to
the fallback model with the retrieval flag forced to true, for either value
of the caller's requested flag and any configuration. -/
theorem claim_C9 (c : RouterConfig) (use_rag : Bool) :
    route_request c
      [{ role := "user",
         content := Content.str "Search the knowledge base for AI",
         extra := [] }]
      use_rag
      = (c.fallback_model, true) := rfl

/-- C4: the `Settings` class defines none of the failover fields the router
constructor reads, so constructing the router stops with an AttributeError
at the first such read (`max_latency_ms`); `confidence_keywords` (read by
the coverage scorer) and `initial_expert_count` (read by expert selection
when k is omitted) are missing as well, so no default threshold is ever
supplied. -/
theorem claim_C4 :
    routerInit = Except.error "max_latency_ms" ∧
    settingsHasField "max_latency_ms" = false ∧
    settingsHasField "max_retries" = false ∧
    settingsHasField "circuit_breaker_threshold" = false ∧
    settingsHasField "retry_backoff_factor" = false ∧
    settingsHasField "retry_initial_delay" = false ∧
    settingsHasField "confidence_keywords" = false ∧
    settingsHasField "initial_expert_count" = false :=
  ⟨rfl, by decide⟩


/-- C1 counterexample: for a user turn whose content holds two text parts,
the code's extracted text is the LAST text part ("hello"), not the
concatenation of all text parts ("debug thishello") that the claim states;
observably, the request routes to the fallback model instead of matching the
"debug" code keyword. -/
theorem claim_C1_counterexample :
    (extractLastUser
        [{ role := "user",
           content := Content.parts [Part.text "debug this", Part.text "hello"],
           extra := [] }]).1
      ≠ concatTextParts [Part.text "debug this", Part.text "hello"] ∧
    (extractLastUser
        [{ role := "user",
           content := Content.parts [Part.text "debug this", Part.text "hello"],
           extra := [] }]).1 = "hello" ∧
    concatTextParts [Part.text "debug this", Part.text "hello"] = "debug thishello" ∧
    route_request testConfig
        [{ role := "user",
           content := Content.parts [Part.text "debug this", Part.text "hello"],
           extra := [] }] false
      = ("gpt-oss:20b-cloud", false) := by decide

/-- C1 as amended: for every request whose most recent user turn has content
given as typed parts, the extracted text is the text of the LAST text part
of that turn (empty if there is none; each text part overwrites the previous
one during the in-order scan), `has_images` is true exactly when some part
of that turn is an image reference, and the routing decision is a function
of that extraction alone (hence depends only on that turn). -/
theorem claim_C1 (c : RouterConfig) (messages : List Message) (use_rag : Bool)
    (m : Message) (ps : List Part)
    (h1 : findLastUser messages = some m) (h2 : m.content = Content.parts ps) :
    extractLastUser messages = (lastTextD "" ps, hasImagePart ps) ∧
    route_request c messages use_rag
      = route_from c (pyLower (lastTextD "" ps)) (hasImagePart ps) use_rag := by
  have hex : extractLastUser messages = (lastTextD "" ps, hasImagePart ps) := by
    rw [extractLastUser, h1]
    simp only
    rw [h2]
    simp [processContent, scanParts_eq]
  exact ⟨hex, by rw [route_request, hex]⟩

/-- Witness for C1 at a concrete multimodal request. -/
theorem claim_C1_witness :
    extractLastUser
        [{ role := "user",
           content := Content.parts [Part.text "hi", Part.image "u", Part.text "there"],
           extra := [] }]
      = (lastTextD "" [Part.text "hi", Part.image "u", Part.text "there"],
         hasImagePart [Part.text "hi", Part.image "u", Part.text "there"]) ∧
    route_request testConfig
        [{ role := "user",
           content := Content.parts [Part.text "hi", Part.image "u", Part.text "there"],
           extra := [] }] false
      = route_from testConfig
          (pyLower (lastTextD "" [Part.text "hi", Part.image "u", Part.text "there"]))
          (hasImagePart [Part.text "hi", Part.image "u", Part.text "there"]) false :=
  claim_C1 testConfig
    [{ role := "user",
       content := Content.parts [Part.text "hi", Part.image "u", Part.text "there"],
       extra := [] }] false
    { role := "user",
      content := Content.parts [Part.text "hi", Part.image "u", Part.text "there"],
      extra := [] }
    [Part.text "hi", Part.image "u", Part.text "there"] (by decide) rfl

/-- A search over `l ++ b :: r` where every element of `l` fails the
predicate and `b` satisfies it finds `b`. -/
theorem find?_append_first {p : String → Bool} (b : String) :
    ∀ l r : List String, (∀ x ∈ l, p x = false) → p b = true →
      (l ++ b :: r).find? p = some b := by
  intro l
  induction l with
  | nil =>
    intro r _ hb
    simp [List.find?, hb]
  | cons x xs ih =>
    intro r hl hb
    have hx : p x = false := hl x (List.mem_cons_self _ _)
    have hxs : ∀ y ∈ xs, p y = false := fun y hy => hl y (List.mem_cons_of_mem _ hy)
    simp [List.find?, hx, ih r hxs hb]

/-- C3: `get_available_model` returns the primary itself when it is not
quarantined; when it is, the first non-quarantined backup in listed order;
and when the primary and every backup are quarantined, the fallback model
regardless of the fallback's own quarantine state.  Being a total function
into `String` it can neither raise nor fail to name an expert. -/
theorem claim_C3 (c : RouterConfig) (h : Health) (e : String) :
    (is_quarantined h e = false → get_available_model c h e = e) ∧
    (is_quarantined h e = true →
      (∀ b ∈ get_backup_models c e, is_quarantined h b = true) →
      get_available_model c h e = c.fallback_model) ∧
    (∀ l b r, is_quarantined h e = true →
      get_backup_models c e = l ++ b :: r →
      (∀ x ∈ l, is_quarantined h x = true) → is_quarantined h b = false →
      get_available_model c h e = b) := by
  refine ⟨?_, ?_, ?_⟩
  · intro hq
    simp [get_available_model, hq]
  · intro hq hall
    have hnone : (get_backup_models c e).find? (fun b => !(is_quarantined h b)) = none := by
      apply List.find?_eq_none.mpr
      intro x hx
      simp [hall x hx]
    simp [get_available_model, hq, hnone]
  · intro l b r hq hsplit hl hb
    have hfind : (get_backup_models c e).find? (fun b => !(is_quarantined h b)) = some b := by
      rw [hsplit]
      apply find?_append_first
      · intro x hx
        simp [hl x hx]
      · simp [hb]
    simp [get_available_model, hq, hfind]

/-- Witness for C3: with the reasoning model quarantined and its first
backup healthy, resolution returns that backup. -/
theorem claim_C3_witness :
    get_available_model testConfig
        (recordFailures testConfig Health.init "deepseek-v3.1:671b-cloud" 3)
        "deepseek-v3.1:671b-cloud"
      = "gpt-oss:120b-cloud" :=
  (claim_C3 testConfig
      (recordFailures testConfig Health.init "deepseek-v3.1:671b-cloud" 3)
      "deepseek-v3.1:671b-cloud").2.2
    [] "gpt-oss:120b-cloud" ["gpt-oss:20b-cloud"]
    (by decide) (by decide) (by decide) (by decide)


/-- The diversity loop of the coverage score accumulates the union of the
per-response word sets and the sum of their cardinalities. -/
theorem score_fold_pair (rs : List String) : ∀ (s : Finset String) (n : Nat),
    rs.foldl
        (fun (acc : Finset String × Nat) response =>
          let words := (pywords (pyLower response)).toFinset
          (acc.1 ∪ words, acc.2 + words.card))
        (s, n)
      = (s ∪ (rs.flatMap (fun r => pywords (pyLower r))).toFinset,
         n + (rs.map (fun r => (pywords (pyLower r)).toFinset.card)).sum) := by
  induction rs with
  | nil => intro s n; simp
  | cons r rest ih =>
    intro s n
    simp only [List.foldl_cons, ih, List.flatMap_cons, List.toFinset_append,
      List.map_cons, List.sum_cons]
    rw [Finset.union_assoc, Nat.add_assoc]

/-- C5 counterexample: for the two responses "a a a a a a a a" and "a a" the
claimed diversity ratio (distinct tokens over total token occurrences) is
1/10 < 0.3, so the claim demands the 0.2 redundancy penalty, but the code's
denominator is the sum of per-response distinct counts (here 2), giving
ratio 1/2 and no penalty: the code scores 7/10 where the claimed rule
scores 1/2. -/
theorem claim_C5_counterexample :
    calculate_coverage_score [] ["a a a a a a a a", "a a"]
        ≠ coverage_score_C5spec [] ["a a a a a a a a", "a a"] ∧
    calculate_coverage_score [] ["a a a a a a a a", "a a"] = 7 / 10 ∧
    coverage_score_C5spec [] ["a a a a a a a a", "a a"] = 1 / 2 := by
  with_unfolding_all decide

/-- C5 as amended: for every sequence of responses the score equals the
spec-style score whose redundancy penalty of 0.2 applies exactly when the
sum over the responses of each response's distinct-token count is positive
and the ratio of the number of distinct tokens across all responses combined
to that sum is below 0.3. -/
theorem claim_C5 (ck : List String) (responses : List String) :
    calculate_coverage_score ck responses
      = coverage_score_C5amended ck responses := by
  simp only [calculate_coverage_score, coverage_score_C5amended, score_fold_pair,
    Finset.empty_union, Nat.zero_add]


/-- A property of the default and of every value in the entry list holds of
any dict lookup result. -/
theorem dictGet_prop (P : List String → Prop)
    (entries : List (String × List String)) (k : String) (d : List String)
    (hd : P d) (he : ∀ p ∈ entries, P p.2) : P (dictGet entries k d) := by
  have aux : ∀ es : List (String × List String), (∀ p ∈ es, P p.2) →
      ∀ acc : Option (List String), (∀ v, acc = some v → P v) →
      ∀ v, es.foldl (fun acc p => if p.1 = k then some p.2 else acc) acc = some v → P v := by
    intro es
    induction es with
    | nil =>
      intro _ acc hacc v hv
      exact hacc v hv
    | cons p rest ih =>
      intro hes acc hacc v hv
      rw [List.foldl_cons] at hv
      refine ih (fun q hq => hes q (List.mem_cons_of_mem _ hq)) _ ?_ v hv
      intro w hw
      by_cases hk : p.1 = k
      · rw [if_pos hk] at hw
        cases hw
        exact hes p (List.mem_cons_self _ _)
      · rw [if_neg hk] at hw
        exact hacc w hw
  rw [dictGet]
  split
  · next v hv => exact aux entries he none (by intro w hw; cases hw) v hv
  · exact hd

/-- Every backup listed in the backup chain is in the expert catalog. -/
theorem backups_subset (c : RouterConfig) (m : String) :
    ∀ b ∈ get_backup_models c m, b ∈ get_all_expert_models c := by
  rw [get_backup_models]
  apply dictGet_prop (fun l => ∀ b ∈ l, b ∈ get_all_expert_models c)
  · intro b hb
    cases hb
  · intro p hp
    simp only [backup_chain, List.mem_cons, List.not_mem_nil, or_false] at hp
    rcases hp with rfl | rfl | rfl | rfl | rfl | rfl | rfl | rfl | rfl <;>
      intro b hb <;>
      simp only [List.mem_cons, List.not_mem_nil, or_false] at hb <;>
      rcases hb with rfl | rfl <;>
      simp [get_all_expert_models]

/-- The fallback model is in the expert catalog. -/
theorem fallback_mem (c : RouterConfig) :
    c.fallback_model ∈ get_all_expert_models c := by
  simp [get_all_expert_models]

/-- Every routing decision names a model from the expert catalog. -/
theorem route_from_mem (c : RouterConfig) (s : String) (hi r : Bool) :
    (route_from c s hi r).1 ∈ get_all_expert_models c := by
  rw [route_from]
  repeat' split
  all_goals simp [get_all_expert_models]

/-- `route_request` returns a catalog model. -/
theorem route_request_mem (c : RouterConfig) (messages : List Message) (r : Bool) :
    (route_request c messages r).1 ∈ get_all_expert_models c := by
  rw [route_request]
  exact route_from_mem c _ _ r

/-- Health-aware substitution stays inside the expert catalog. -/
theorem get_available_model_mem (c : RouterConfig) (h : Health) (e : String)
    (he : e ∈ get_all_expert_models c) :
    get_available_model c h e ∈ get_all_expert_models c := by
  rw [get_available_model]
  split
  · exact he
  · split
    · next b hb => exact backups_subset c e b (List.mem_of_find?_eq_some hb)
    · exact fallback_mem c

/-- The candidate loop preserves freedom from duplicates. -/
theorem fillExperts_nodup (h : Health) (k : Nat) (cs : List String) :
    ∀ acc : List String, acc.Nodup → (fillExperts h k cs acc).Nodup := by
  induction cs with
  | nil =>
    intro acc hacc
    exact hacc
  | cons m rest ih =>
    intro acc hacc
    rw [fillExperts, List.foldl_cons]
    apply ih
    by_cases hk : k ≤ acc.length
    · simp [hk, hacc]
    · simp only [if_neg hk]
      split
      · next hcond =>
        have hnotmem : m ∉ acc := by
          rcases Bool.and_eq_true _ _ |>.mp hcond with ⟨-, h2⟩
          simpa using h2
        simp [List.nodup_append, hacc, hnotmem]
      · exact hacc

/-- Every element the candidate loop returns came from the accumulator or
the candidate list. -/
theorem fillExperts_mem (h : Health) (k : Nat) (cs : List String) :
    ∀ acc x, x ∈ fillExperts h k cs acc → x ∈ acc ∨ x ∈ cs := by
  induction cs with
  | nil =>
    intro acc x hx
    exact Or.inl hx
  | cons m rest ih =>
    intro acc x hx
    rw [fillExperts, List.foldl_cons] at hx
    rcases ih _ x hx with hacc | hrest
    · by_cases hk : k ≤ acc.length
      · rw [if_pos hk] at hacc
        exact Or.inl hacc
      · rw [if_neg hk] at hacc
        revert hacc
        split
        · intro hacc
          rcases List.mem_append.mp hacc with h1 | h1
          · exact Or.inl h1
          · right
            simp only [List.mem_singleton] at h1
            exact h1 ▸ List.mem_cons_self _ _
        · exact fun hacc => Or.inl hacc
    · exact Or.inr (List.mem_cons_of_mem _ hrest)

/-- A duplicate-free list of elements of another list is no longer than it. -/
theorem nodup_subset_length (l cat : List String) (hn : l.Nodup)
    (hs : ∀ x ∈ l, x ∈ cat) : l.length ≤ cat.length := by
  calc l.length = l.toFinset.card := (List.toFinset_card_of_nodup hn).symm
    _ ≤ cat.toFinset.card := by
        apply Finset.card_le_card
        intro x hx
        rw [List.mem_toFinset] at hx ⊢
        exact hs x hx
    _ ≤ cat.length := cat.toFinset_card_le

/-- C6: expert selection always returns a duplicate-free list of length at
most k, and never longer than the expert catalog (so a k larger than the
catalog size still yields at most catalog-size experts). -/
theorem claim_C6 (c : RouterConfig) (h : Health) (messages : List Message) (k : Nat) :
    (select_experts_for_query c h messages k).Nodup ∧
    (select_experts_for_query c h messages k).length ≤ k ∧
    (select_experts_for_query c h messages k).length
      ≤ (get_all_expert_models c).length := by
  rw [select_experts_for_query]
  set primary := get_available_model c h (route_request c messages false).1 with hprimary
  have hpmem : primary ∈ get_all_expert_models c := by
    rw [hprimary]
    exact get_available_model_mem c h _ (route_request_mem c messages false)
  set experts :=
    (if 1 < k then
      let e1 := fillExperts h k (get_backup_models c primary) [primary]
      if e1.length < k then fillExperts h k (get_all_expert_models c) e1 else e1
    else [primary]) with hexperts
  have hnodup : experts.Nodup := by
    rw [hexperts]
    split
    · simp only
      split
      · exact fillExperts_nodup h k _ _
          (fillExperts_nodup h k _ [primary] (List.nodup_singleton primary))
      · exact fillExperts_nodup h k _ [primary] (List.nodup_singleton primary)
    · exact List.nodup_singleton primary
  have hmem : ∀ x ∈ experts, x ∈ get_all_expert_models c := by
    intro x hx
    rw [hexperts] at hx
    revert hx
    split
    · simp only
      split
      · intro hx
        rcases fillExperts_mem h k _ _ x hx with h1 | h1
        · rcases fillExperts_mem h k _ _ x h1 with h2 | h2
          · rw [List.mem_singleton] at h2
            exact h2 ▸ hpmem
          · exact backups_subset c primary x h2
        · exact h1
      · intro hx
        rcases fillExperts_mem h k _ _ x hx with h1 | h1
        · rw [List.mem_singleton] at h1
          exact h1 ▸ hpmem
        · exact backups_subset c primary x h1
    · intro hx
      rw [List.mem_singleton] at hx
      exact hx ▸ hpmem
  have htake_nodup : (experts.take k).Nodup := (List.take_sublist k experts).nodup hnodup
  refine ⟨htake_nodup, ?_, ?_⟩
  · exact List.length_take_le k experts
  · apply nodup_subset_length _ _ htake_nodup
    intro x hx
    exact hmem x (List.mem_of_mem_take hx)


/-- C10: stripping images preserves the number and order of turns; a turn
with typed-part content has its content replaced by the single-space-joined
concatenation of its text parts only, its other fields untouched, while a
turn with plain-text content passes through unchanged. -/
theorem claim_C10 (messages : List Message) :
    (strip_images_for_fallback messages).length = messages.length ∧
    ∀ i, i < messages.length → ∀ m, messages[i]? = some m →
      (strip_images_for_fallback messages)[i]?
        = some (match m.content with
                | Content.parts ps =>
                    { m with content := Content.str (String.intercalate " " (textParts ps)) }
                | Content.str _ => m) := by
  constructor
  · simp [strip_images_for_fallback]
  · intro i hi m hm
    obtain ⟨mrole, mcontent, mextra⟩ := m
    rw [strip_images_for_fallback, List.getElem?_map, hm]
    simp only [Option.map_some]
    cases mcontent with
    | str s => rfl
    | parts ps =>
      by_cases he : textParts ps = []
      · have hint : String.intercalate " " ([] : List String) = "" := rfl
        simp [he, hint]
      · simp [he]

/-- Witness for C10: a mixed text/image turn collapses to its space-joined
text parts with the other fields kept. -/
theorem claim_C10_witness :
    (strip_images_for_fallback
        [{ role := "user",
           content := Content.parts [Part.text "a", Part.image "u", Part.text "b"],
           extra := [("name", "n")] }]).length = 1 ∧
    (strip_images_for_fallback
        [{ role := "user",
           content := Content.parts [Part.text "a", Part.image "u", Part.text "b"],
           extra := [("name", "n")] }])[0]?
      = some { role := "user", content := Content.str "a b", extra := [("name", "n")] } := by
  have h := claim_C10
    [{ role := "user",
       content := Content.parts [Part.text "a", Part.image "u", Part.text "b"],
       extra := [("name", "n")] }]
  exact ⟨h.1, h.2 0 (by decide) _ rfl⟩

end MoE
